import Mathlib

/-!
Verification of the AVO-Next scenario execution and cart-comparison logic.

The definitions below are shallow embeddings of the TypeScript sources:
`client/src/components/Scenarios.tsx` (the list view and the detail view,
including the pure cart-comparison helpers, the cost calculator and the
polling logic) and `client/src/lib/scenario-types.ts` (the data model).
JavaScript numbers are modelled as rationals and JavaScript string
comparison as equality on `String`.  The backend service (the `server/`
directory) is not among the sources; the definitions standing in for it
are modelled from the specification and say so in their doc comments.
-/

namespace AvoNext

/-- `CartItem` from `client/src/lib/scenario-types.ts`:
`{product_id, product_name, quantity, unit}`. -/
structure CartItem where
  product_id : String
  product_name : String
  quantity : ℚ
  unit : String
deriving DecidableEq, Repr

/-- The mismatch classification labels used by `getMismatchDetail` in
`Scenarios.tsx` (the union type `MismatchType`). -/
inductive MismatchType
  | exact_match
  | quantity_mismatch
  | unit_mismatch
  | quantity_and_unit_mismatch
  | extra_item
  | missing_item
deriving DecidableEq, Repr

/-- The `MismatchDetail` record produced by `getMismatchDetail`
(`Scenarios.tsx`); optional fields are absent (`none`) unless set.  The
TypeScript field `type` is called `kind` here because `type` cannot be a
field name in Lean. -/
structure MismatchDetail where
  kind : MismatchType
  productId : String
  expectedQuantity : Option ℚ := none
  actualQuantity : Option ℚ := none
  expectedUnit : Option String := none
  actualUnit : Option String := none
deriving DecidableEq, Repr

/-- `getMismatchDetail` from `Scenarios.tsx` (lines 963-1007): classify one
predicted item against the ground-truth cart, using the first ground-truth
item with the same `product_id` (`groundTruth.find(...)`). -/
def getMismatchDetail (pred : CartItem) (groundTruth : List CartItem) : MismatchDetail :=
  match groundTruth.find? (fun gt => decide (gt.product_id = pred.product_id)) with
  | none => { kind := .extra_item, productId := pred.product_id }
  | some matchingProduct =>
    let quantityMatches := decide (matchingProduct.quantity = pred.quantity)
    let unitMatches := decide (matchingProduct.unit = pred.unit)
    if quantityMatches && unitMatches then
      { kind := .exact_match, productId := pred.product_id }
    else if !quantityMatches && !unitMatches then
      { kind := .quantity_and_unit_mismatch
        productId := pred.product_id
        expectedQuantity := some matchingProduct.quantity
        actualQuantity := some pred.quantity
        expectedUnit := some matchingProduct.unit
        actualUnit := some pred.unit }
    else if !quantityMatches then
      { kind := .quantity_mismatch
        productId := pred.product_id
        expectedQuantity := some matchingProduct.quantity
        actualQuantity := some pred.quantity
        expectedUnit := some matchingProduct.unit
        actualUnit := some pred.unit }
    else
      { kind := .unit_mismatch
        productId := pred.product_id
        expectedQuantity := some matchingProduct.quantity
        actualQuantity := some pred.quantity
        expectedUnit := some matchingProduct.unit
        actualUnit := some pred.unit }

/-- `cartItemsMatch` from `Scenarios.tsx` (lines 944-948): exact agreement
on `product_id`, `quantity` and `unit`. -/
def cartItemsMatch (gt pred : CartItem) : Bool :=
  decide (gt.product_id = pred.product_id) &&
  decide (gt.quantity = pred.quantity) &&
  decide (gt.unit = pred.unit)

/-- The `isExactMatch` computation from `Scenarios.tsx` (lines 2646-2647):
equal lengths, and every ground-truth item has some matching predicted item. -/
def isExactMatch (gtItems predItems : List CartItem) : Bool :=
  decide (gtItems.length = predItems.length) &&
  gtItems.all (fun gt => predItems.any (fun pred => cartItemsMatch gt pred))

/-- `getMissingItems` from `Scenarios.tsx` (lines 1010-1012): ground-truth
items whose `product_id` occurs in no predicted item. -/
def getMissingItems (groundTruth predictions : List CartItem) : List CartItem :=
  groundTruth.filter
    (fun gt => ! predictions.any (fun pred => decide (pred.product_id = gt.product_id)))

/-- One entry of the `MODEL_PRICING` table in `Scenarios.tsx`
(lines 902-916), prices per million tokens in USD. -/
structure ModelPricing where
  input_small : ℚ
  input_large : ℚ
  output_small : ℚ
  output_large : ℚ
deriving DecidableEq, Repr

/-- Pricing of `gemini-2.5-pro` from the `MODEL_PRICING` table:
1.25 / 2.50 / 10.00 / 15.00 USD per million tokens. -/
def geminiProPricing : ModelPricing := ⟨5/4, 5/2, 10, 15⟩

/-- Pricing of `gemini-2.5-flash` from the `MODEL_PRICING` table:
0.30 / 0.30 / 2.50 / 2.50 USD per million tokens. -/
def geminiFlashPricing : ModelPricing := ⟨3/10, 3/10, 5/2, 5/2⟩

/-- The `MODEL_PRICING` lookup (`MODEL_PRICING[modelName]` in
`Scenarios.tsx` line 922 yields `undefined`, i.e. `none`, for unknown
model names). -/
def modelPricing (modelName : String) : Option ModelPricing :=
  if modelName = "gemini-2.5-pro" then some geminiProPricing
  else if modelName = "gemini-2.5-flash" then some geminiFlashPricing
  else none

/-- `calculateCost` from `Scenarios.tsx` (lines 919-929).  The JavaScript
guard `!inputTokens || !outputTokens` is falsy exactly on zero for number
arguments; the `|| MODEL_PRICING[...]` default is `Option.getD`. -/
def calculateCost (inputTokens outputTokens : ℚ) (modelName : String) : ℚ :=
  if inputTokens = 0 ∨ outputTokens = 0 then 0
  else
    let pricing := (modelPricing modelName).getD geminiProPricing
    inputTokens / 1000000 * pricing.input_small + outputTokens / 1000000 * pricing.output_small

/-- `ModelExecutionResult` from `client/src/lib/scenario-types.ts`
(lines 15-26); all result fields are optional. -/
structure ModelExecutionResult where
  model_name : String
  llm_transcription : Option String := none
  ai_response : Option String := none
  raw_llm_response : Option String := none
  predicted_cart : Option (List CartItem) := none
  input_tokens : Option ℚ := none
  output_tokens : Option ℚ := none
  latency_ms : Option ℚ := none
  executed_at : Option String := none
  error : Option String := none
deriving DecidableEq, Repr

/-- `calculateModelResultCost` from `Scenarios.tsx` (lines 938-941).  The
guard `!result?.input_tokens || !result?.output_tokens` is truthy when the
result is absent, when a token field is absent, or when it is zero. -/
def calculateModelResultCost (result : Option ModelExecutionResult) (modelName : String) : ℚ :=
  match result with
  | none => 0
  | some r =>
    if r.input_tokens.getD 0 = 0 ∨ r.output_tokens.getD 0 = 0 then 0
    else calculateCost (r.input_tokens.getD 0) (r.output_tokens.getD 0) modelName

/-- The `ExecutionStatus` union exactly as declared in
`client/src/lib/scenario-types.ts` line 114:
`'pending' | 'running' | 'completed' | 'failed'`.  Note the absence of a
`cancelled` alternative. -/
inductive ExecutionStatus
  | pending
  | running
  | completed
  | failed
deriving DecidableEq, Repr

/-- The string literal denoted by each alternative of the declared
`ExecutionStatus` union. -/
def ExecutionStatus.toName : ExecutionStatus → String
  | .pending => "pending"
  | .running => "running"
  | .completed => "completed"
  | .failed => "failed"

/-- `ExecutionStatusInfo` from `client/src/lib/scenario-types.ts`
(lines 116-128). -/
structure ExecutionStatusInfo where
  status : ExecutionStatus
  current_model : Option String := none
  current_model_index : Option ℕ := none
  total_models : Option ℕ := none
  current_step : ℕ
  total_steps : ℕ
  steps_processed : ℕ := 0
  steps_skipped : ℕ := 0
  steps_failed : ℕ := 0
  models_completed : Option ℕ := none
  error : Option String := none
deriving DecidableEq, Repr

/-- The terminal-status test performed by both polling loops
(`Scenarios.tsx` lines 188 and 1093): the polled status string is compared
against the three literals `completed`, `failed` and `cancelled`. -/
def isTerminalStatus (s : String) : Bool :=
  decide (s = "completed") || decide (s = "failed") || decide (s = "cancelled")

/-- The client-side observable state of one polling loop for one scenario
(`Scenarios.tsx` `startPolling`, lines 173-232): whether the interval is
still registered, whether the completion toast was already shown
(membership in `completedScenarios`), the stored status entry, and how
many terminal toasts have been emitted. -/
structure PollState where
  pollingActive : Bool
  notified : Bool
  statusEntry : Option String
  toastCount : ℕ
deriving DecidableEq, Repr

/-- One execution of the `poll` closure (`Scenarios.tsx` lines 179-227) on
an observed status string: store the status; on a terminal status clear
the interval, and emit the toast only if it was not already emitted. -/
def pollOnce (st : PollState) (s : String) : PollState :=
  let st1 : PollState := { st with statusEntry := some s }
  if isTerminalStatus s then
    let st2 : PollState := { st1 with pollingActive := false }
    if st2.notified then st2
    else { st2 with notified := true, toastCount := st2.toastCount + 1 }
  else st1

/-- The polling loop: each tick runs `pollOnce` while the interval is
registered; once the interval is cleared no further poll runs. -/
def runPolling (st : PollState) : List String → PollState
  | [] => st
  | s :: rest => if st.pollingActive then runPolling (pollOnce st s) rest else st

/-- The state right after `startPolling` registers the interval for a fresh
execution attempt: polling active, not yet notified, no stored entry. -/
def initPollState : PollState :=
  { pollingActive := true, notified := false, statusEntry := none, toastCount := 0 }

/-- The polling interval of the scenario list view (`setInterval(poll, 2000)`,
`Scenarios.tsx` line 231), in milliseconds. -/
def listPollIntervalMs : ℕ := 2000

/-- The polling interval of the scenario detail view (`setInterval(poll, 1000)`,
`Scenarios.tsx` line 1121), in milliseconds. -/
def detailPollIntervalMs : ℕ := 1000

/-- The delay of the cleanup `setTimeout` in `Scenarios.tsx` line 218, in
milliseconds. -/
def cleanupDelayMs : ℕ := 3000

/-- The status-map update performed by the cleanup callback
(`Scenarios.tsx` lines 211-215): delete exactly the entry of the finished
scenario, keep every other entry. -/
def clearStatusEntry (statuses : String → Option ExecutionStatusInfo) (sid : String) :
    String → Option ExecutionStatusInfo :=
  fun k => if k = sid then none else statuses k

/-- The `completedScenarios.current.delete(scenarioId)` update performed by
the cleanup callback (`Scenarios.tsx` line 217). -/
def removeNotified (notified : String → Bool) (sid : String) : String → Bool :=
  fun k => if k = sid then false else notified k

/-- A concrete status map holding entries for two scenarios, used to
instantiate the cleanup frame theorem. -/
def demoStatuses : String → Option ExecutionStatusInfo :=
  fun k =>
    if k = "s1" then some { status := .completed, current_step := 2, total_steps := 2 }
    else if k = "s2" then some { status := .running, current_step := 1, total_steps := 3 }
    else none

/-- A concrete already-notified set, used to instantiate the cleanup frame
theorem. -/
def demoNotified : String → Bool := fun k => decide (k = "s1")

/-- A concrete model result with both token counts present and nonzero,
used to instantiate the cost theorem. -/
def demoResult : ModelExecutionResult :=
  { model_name := "mystery-model", input_tokens := some 100, output_tokens := some 200 }

/-- The operations on the `selectedScenarios` set in the scenario list view
(`Scenarios.tsx`): `toggleScenarioSelection` (lines 59-69),
`selectAllScenarios` (lines 72-75) and `clearSelection` (lines 78-81). -/
inductive SelectionOp
  | toggle (sid : String)
  | selectAll (ids : List String)
  | clearAll
deriving DecidableEq, Repr

/-- `toggleScenarioSelection`: delete the id if present, insert it
otherwise.  A JavaScript `Set` is modelled as a duplicate-free list in
insertion order; `add` appends, `delete` removes the one occurrence. -/
def toggleSel (sel : List String) (sid : String) : List String :=
  if sid ∈ sel then sel.erase sid else sel ++ [sid]

/-- Apply one selection operation; `new Set(allIds)` deduplicates, keeping
first occurrences, and `clearSelection` installs the empty set. -/
def applySelOp (sel : List String) : SelectionOp → List String
  | .toggle sid => toggleSel sel sid
  | .selectAll ids => ids.dedup
  | .clearAll => []

/-- The selection contents after a sequence of user operations, starting
from the initial empty set (`useState<Set<string>>(new Set())`).
`Array.from(selectedScenarios)`, the list sent to `batchExecute`, is
exactly this list. -/
def runSelOps (ops : List SelectionOp) : List String := ops.foldl applySelOp []

/-- Modelled from the spec: the backend comparison engine's ground-truth
lookup by `product_id` (spec section 4.1; `scenario_service.compare_carts`
is not among the sources).  Duplicate ground-truth ids resolve to the
first entry. -/
def gtLookup (gt : List CartItem) (pid : String) : Option CartItem :=
  gt.find? (fun g => decide (g.product_id = pid))

/-- Modelled from the spec: a predicted item is a true positive when the
ground-truth item with its `product_id` exists and agrees on `quantity`
and `unit` (spec section 4.1). -/
def isTruePositive (gt : List CartItem) (p : CartItem) : Bool :=
  match gtLookup gt p.product_id with
  | some g => decide (g.quantity = p.quantity) && decide (g.unit = p.unit)
  | none => false

/-- Modelled from the spec: the number of true positives among the
predicted items (spec section 4.1). -/
def truePositives (gt pred : List CartItem) : ℕ :=
  (pred.filter (fun p => isTruePositive gt p)).length

/-- The `max(1, n)` denominator guard of the metric formulas. -/
def maxOne (n : ℕ) : ℕ := max 1 n

/-- Modelled from the spec: `precision = true_positives / max(1, len(predicted))`
(spec section 4.1; the backend comparison code is not among the sources). -/
def precisionOf (gt pred : List CartItem) : ℚ :=
  (truePositives gt pred : ℚ) / (maxOne pred.length : ℚ)

/-- Modelled from the spec: `recall = true_positives / max(1, len(ground_truth))`
(spec section 4.1; the backend comparison code is not among the sources). -/
def recallOf (gt pred : List CartItem) : ℚ :=
  (truePositives gt pred : ℚ) / (maxOne gt.length : ℚ)

/-- Modelled from the spec: `f1 = 0 if precision+recall==0 else
2*precision*recall/(precision+recall)` (spec section 4.1). -/
def f1Of (gt pred : List CartItem) : ℚ :=
  if precisionOf gt pred + recallOf gt pred = 0 then 0
  else 2 * precisionOf gt pred * recallOf gt pred / (precisionOf gt pred + recallOf gt pred)

/-- Modelled from the spec: the five execution states of spec section 4.2
(`pending`, `running`, `completed`, `failed`, `cancelled`), as maintained
by the backend execution-status store, which is not among the sources. -/
inductive SpecStatus
  | pending
  | running
  | completed
  | failed
  | cancelled
deriving DecidableEq, Repr

/-- Modelled from the spec: the terminal states of the execution state
machine (spec section 4.2). -/
def isTerminalSpec : SpecStatus → Bool
  | .completed => true
  | .failed => true
  | .cancelled => true
  | _ => false

/-- Modelled from the spec: the backend execution-status store (spec
sections 4.2 and 9), a per-scenario-id entry plus a ghost counter of
executions currently in flight for each scenario id. -/
structure ExecStore where
  entry : String → Option SpecStatus
  inflight : String → ℕ

/-- Modelled from the spec: the start-execution transition (spec section
4.2): reject with a synchronous error when an entry with `status=running`
exists — the rejection produces no successor state, so the store is
untouched — and otherwise create a `running` entry, putting one more
execution of that scenario in flight. -/
def startExecution (s : ExecStore) (sid : String) : Except String ExecStore :=
  if s.entry sid = some SpecStatus.running then Except.error ("already running")
  else Except.ok
    { entry := fun k => if k = sid then some SpecStatus.running else s.entry k
      inflight := fun k => if k = sid then s.inflight k + 1 else s.inflight k }

/-- Modelled from the spec: the terminal transition (spec section 4.2): a
running execution ends in a terminal outcome, leaving flight. -/
def finishExecution (s : ExecStore) (sid : String) (outcome : SpecStatus) : ExecStore :=
  if s.entry sid = some SpecStatus.running ∧ isTerminalSpec outcome = true then
    { entry := fun k => if k = sid then some outcome else s.entry k
      inflight := fun k => if k = sid then s.inflight k - 1 else s.inflight k }
  else s

/-- Modelled from the spec: the delayed cleanup (spec section 4.2): a
terminal entry is removed so a new execution can start cleanly. -/
def clearTerminalEntry (s : ExecStore) (sid : String) : ExecStore :=
  if (s.entry sid).any isTerminalSpec then
    { entry := fun k => if k = sid then none else s.entry k
      inflight := s.inflight }
  else s

/-- Modelled from the spec: queueing for batch execution marks a scenario
without an entry as `pending` (spec section 4.2); it does not put an
execution in flight. -/
def markPending (s : ExecStore) (sid : String) : ExecStore :=
  if s.entry sid = none then
    { entry := fun k => if k = sid then some SpecStatus.pending else s.entry k
      inflight := s.inflight }
  else s

/-- Modelled from the spec: the transitions of the execution-status store.
A rejected start is not a step — it returns an error and no successor
state. -/
inductive StoreStep : ExecStore → ExecStore → Prop
  | start (s s' : ExecStore) (sid : String) :
      startExecution s sid = Except.ok s' → StoreStep s s'
  | finish (s : ExecStore) (sid : String) (outcome : SpecStatus) :
      StoreStep s (finishExecution s sid outcome)
  | clearEntry (s : ExecStore) (sid : String) :
      StoreStep s (clearTerminalEntry s sid)
  | enqueue (s : ExecStore) (sid : String) :
      StoreStep s (markPending s sid)

/-- The store before any execution: no entries, nothing in flight. -/
def initStore : ExecStore := { entry := fun _ => none, inflight := fun _ => 0 }

/-- States of the execution-status store reachable from the initial store. -/
inductive ReachableStore : ExecStore → Prop
  | init : ReachableStore initStore
  | step {s s' : ExecStore} : ReachableStore s → StoreStep s s' → ReachableStore s'

/-- The single-flight invariant: a scenario has exactly one execution in
flight when its entry is `running` and none otherwise. -/
def StoreInv (s : ExecStore) : Prop :=
  ∀ sid, (s.entry sid = some SpecStatus.running → s.inflight sid = 1) ∧
         (s.entry sid ≠ some SpecStatus.running → s.inflight sid = 0)

/-- A concrete store in which scenario `s1` is running, used to instantiate
the rejection theorem. -/
def runningStoreA : ExecStore :=
  { entry := fun k => if k = "s1" then some SpecStatus.running else none
    inflight := fun k => if k = "s1" then 1 else 0 }

/-! ## Helper lemmas -/

theorem cartItemsMatch_iff (g p : CartItem) :
    cartItemsMatch g p = true ↔
      g.product_id = p.product_id ∧ g.quantity = p.quantity ∧ g.unit = p.unit := by
  simp [cartItemsMatch, and_assoc]

theorem runPolling_inactive (st : PollState) (l : List String)
    (h : st.pollingActive = false) : runPolling st l = st := by
  cases l with
  | nil => rfl
  | cons s rest => simp [runPolling, h]

theorem runPolling_invariant (obs : List String) (st : PollState)
    (hact : st.pollingActive = true) (hnot : st.notified = false)
    (htoast : st.toastCount = 0) :
    (runPolling st obs).toastCount ≤ 1 ∧
    ((runPolling st obs).pollingActive = false ↔ ∃ s ∈ obs, isTerminalStatus s = true) := by
  induction obs generalizing st with
  | nil =>
    simp [runPolling, hact, htoast]
  | cons s rest ih =>
    rw [runPolling, if_pos hact]
    by_cases hterm : isTerminalStatus s = true
    · have hpoll : pollOnce st s =
          { pollingActive := false, notified := true, statusEntry := some s,
            toastCount := st.toastCount + 1 } := by
        simp [pollOnce, hterm, hnot]
      rw [hpoll, runPolling_inactive _ _ rfl]
      refine ⟨by simp [htoast], ?_⟩
      constructor
      · intro _
        exact ⟨s, List.mem_cons_self s rest, hterm⟩
      · intro _
        rfl
    · have hpoll : pollOnce st s = { st with statusEntry := some s } := by
        simp [pollOnce, hterm]
      rw [hpoll]
      have hrest := ih { st with statusEntry := some s } hact hnot htoast
      refine ⟨hrest.1, ?_⟩
      rw [hrest.2]
      simp only [List.mem_cons]
      constructor
      · rintro ⟨t, ht, htt⟩
        exact ⟨t, Or.inr ht, htt⟩
      · rintro ⟨t, ht | ht, htt⟩
        · subst ht
          exact absurd htt hterm
        · exact ⟨t, ht, htt⟩

theorem applySelOp_nodup (sel : List String) (op : SelectionOp) (h : sel.Nodup) :
    (applySelOp sel op).Nodup := by
  cases op with
  | toggle sid =>
    by_cases hmem : sid ∈ sel
    · simpa [applySelOp, toggleSel, hmem] using h.erase sid
    · simp only [applySelOp, toggleSel, if_neg hmem]
      rw [List.nodup_append]
      refine ⟨h, List.nodup_singleton sid, fun a ha hb => ?_⟩
      rw [List.mem_singleton] at hb
      subst hb
      exact hmem ha
  | selectAll ids => simpa [applySelOp] using ids.nodup_dedup
  | clearAll => simp [applySelOp]

theorem foldl_selOps_nodup (ops : List SelectionOp) (sel : List String) (h : sel.Nodup) :
    (ops.foldl applySelOp sel).Nodup := by
  induction ops generalizing sel with
  | nil => simpa
  | cons op rest ih => exact ih _ (applySelOp_nodup sel op h)

theorem truePositives_le_pred (gt pred : List CartItem) :
    truePositives gt pred ≤ pred.length :=
  List.length_filter_le _ pred

theorem maxOne_pos (n : ℕ) : (0 : ℚ) < (maxOne n : ℚ) := by
  have h : 1 ≤ maxOne n := le_max_left 1 n
  exact_mod_cast Nat.lt_of_lt_of_le Nat.zero_lt_one h

theorem le_maxOne (n : ℕ) : (n : ℚ) ≤ (maxOne n : ℚ) := by
  exact_mod_cast le_max_right 1 n

theorem truePositives_le_gt (gt pred : List CartItem)
    (hP : (pred.map CartItem.product_id).Nodup) :
    truePositives gt pred ≤ gt.length := by
  set S := pred.filter (fun p => isTruePositive gt p) with hS
  have hSsub : S.Sublist pred := List.filter_sublist pred
  have hSid : (S.map CartItem.product_id).Nodup :=
    (hSsub.map CartItem.product_id).nodup hP
  have hSnodup : S.Nodup := hSid.of_map
  have hfound : ∀ p ∈ S, ∃ g, gtLookup gt p.product_id = some g ∧ g ∈ gt ∧
      g.product_id = p.product_id := by
    intro p hp
    have hp' := List.of_mem_filter hp
    unfold isTruePositive at hp'
    cases hg : gtLookup gt p.product_id with
    | none => rw [hg] at hp'; exact absurd hp' (by simp)
    | some g =>
      refine ⟨g, rfl, List.mem_of_find?_eq_some hg, ?_⟩
      have hpred := List.find?_some hg
      simpa using hpred
  have hcard : S.toFinset.card ≤ gt.toFinset.card := by
    apply Finset.card_le_card_of_injOn (fun p => (gtLookup gt p.product_id).getD p)
    · intro p hp
      rw [List.mem_toFinset] at hp
      obtain ⟨g, hg, hmem, _⟩ := hfound p hp
      rw [List.mem_toFinset]
      simpa [hg] using hmem
    · intro p₁ hp₁ p₂ hp₂ heq
      rw [Finset.mem_coe, List.mem_toFinset] at hp₁ hp₂
      obtain ⟨g₁, hg₁, _, hid₁⟩ := hfound p₁ hp₁
      obtain ⟨g₂, hg₂, _, hid₂⟩ := hfound p₂ hp₂
      simp only [hg₁, hg₂, Option.getD_some] at heq
      have hpid : p₁.product_id = p₂.product_id := by
        rw [← hid₁, heq, hid₂]
      exact List.inj_on_of_nodup_map hSid hp₁ hp₂ hpid
  have h1 : S.length = S.toFinset.card := (List.toFinset_card_of_nodup hSnodup).symm
  have h2 : gt.toFinset.card ≤ gt.length := gt.toFinset_card_le
  calc truePositives gt pred = S.length := rfl
    _ = S.toFinset.card := h1
    _ ≤ gt.toFinset.card := hcard
    _ ≤ gt.length := h2

theorem precision_bounds (gt pred : List CartItem) :
    0 ≤ precisionOf gt pred ∧ precisionOf gt pred ≤ 1 := by
  constructor
  · exact div_nonneg (by positivity) (le_of_lt (maxOne_pos _))
  · rw [precisionOf, div_le_one (maxOne_pos _)]
    calc (truePositives gt pred : ℚ) ≤ (pred.length : ℚ) := by
          exact_mod_cast truePositives_le_pred gt pred
      _ ≤ (maxOne pred.length : ℚ) := le_maxOne _

theorem recall_nonneg (gt pred : List CartItem) : 0 ≤ recallOf gt pred :=
  div_nonneg (by positivity) (le_of_lt (maxOne_pos _))

theorem recall_le_one (gt pred : List CartItem)
    (hP : (pred.map CartItem.product_id).Nodup) : recallOf gt pred ≤ 1 := by
  rw [recallOf, div_le_one (maxOne_pos _)]
  calc (truePositives gt pred : ℚ) ≤ (gt.length : ℚ) := by
        exact_mod_cast truePositives_le_gt gt pred hP
    _ ≤ (maxOne gt.length : ℚ) := le_maxOne _

theorem f1_nonneg (gt pred : List CartItem) : 0 ≤ f1Of gt pred := by
  rw [f1Of]
  split
  · exact le_refl 0
  · rename_i h
    have hp := (precision_bounds gt pred).1
    have hr := recall_nonneg gt pred
    have hsum : 0 < precisionOf gt pred + recallOf gt pred :=
      lt_of_le_of_ne (add_nonneg hp hr) (Ne.symm h)
    positivity

theorem f1_le_one (gt pred : List CartItem)
    (hP : (pred.map CartItem.product_id).Nodup) : f1Of gt pred ≤ 1 := by
  rw [f1Of]
  split
  · exact zero_le_one
  · rename_i h
    have hp0 := (precision_bounds gt pred).1
    have hp1 := (precision_bounds gt pred).2
    have hr0 := recall_nonneg gt pred
    have hr1 := recall_le_one gt pred hP
    have hsum : 0 < precisionOf gt pred + recallOf gt pred :=
      lt_of_le_of_ne (add_nonneg hp0 hr0) (Ne.symm h)
    rw [div_le_one hsum]
    nlinarith [mul_nonneg hp0 (sub_nonneg.mpr hr1), mul_nonneg hr0 (sub_nonneg.mpr hp1)]

theorem storeInv_init : StoreInv initStore := by
  intro sid
  constructor
  · intro h
    simp [initStore] at h
  · intro _
    rfl

theorem storeInv_step {s s' : ExecStore} (hinv : StoreInv s) (hstep : StoreStep s s') :
    StoreInv s' := by
  cases hstep with
  | start s2 sid hok =>
    simp only [startExecution] at hok
    split at hok
    · cases hok
    · rename_i hnotrun
      have hz : s.inflight sid = 0 := (hinv sid).2 hnotrun
      injection hok with hok
      subst hok
      intro k
      by_cases hk : k = sid
      · subst hk
        constructor
        · intro _
          simp [hz]
        · intro h
          simp at h
      · constructor
        · intro h
          simp only [if_neg hk] at h ⊢
          exact (hinv k).1 h
        · intro h
          simp only [if_neg hk] at h ⊢
          exact (hinv k).2 h
  | finish sid outcome =>
    simp only [finishExecution]
    split
    · rename_i hcond
      intro k
      by_cases hk : k = sid
      · subst hk
        constructor
        · intro h
          exfalso
          simp only [if_pos rfl] at h
          injection h with h
          rw [h] at hcond
          simp [isTerminalSpec] at hcond
        · intro _
          have h1 : s.inflight k = 1 := (hinv k).1 hcond.1
          simp [h1]
      · constructor
        · intro h
          simp only [if_neg hk] at h ⊢
          exact (hinv k).1 h
        · intro h
          simp only [if_neg hk] at h ⊢
          exact (hinv k).2 h
    · exact hinv
  | clearEntry sid =>
    simp only [clearTerminalEntry]
    split
    · rename_i hterm
      intro k
      by_cases hk : k = sid
      · subst hk
        constructor
        · intro h
          simp at h
        · intro _
          apply (hinv k).2
          intro hcontra
          rw [hcontra] at hterm
          simp [isTerminalSpec] at hterm
      · constructor
        · intro h
          simp only [if_neg hk] at h
          exact (hinv k).1 h
        · intro h
          simp only [if_neg hk] at h
          exact (hinv k).2 h
    · exact hinv
  | enqueue sid =>
    simp only [markPending]
    split
    · rename_i hnone
      intro k
      by_cases hk : k = sid
      · subst hk
        constructor
        · intro h
          simp at h
        · intro _
          apply (hinv k).2
          rw [hnone]
          simp
      · constructor
        · intro h
          simp only [if_neg hk] at h
          exact (hinv k).1 h
        · intro h
          simp only [if_neg hk] at h
          exact (hinv k).2 h
    · exact hinv

theorem storeInv_reachable {s : ExecStore} (h : ReachableStore s) : StoreInv s := by
  induction h with
  | init => exact storeInv_init
  | step _ hstep ih => exact storeInv_step ih hstep

/-! ## Claim theorems -/

/-- C1: for every predicted cart item `p` and ground-truth cart `G`,
`getMismatchDetail` returns `extra_item` when no item of `G` carries `p`'s
`product_id`; and for the ground-truth item `m` looked up by `p`'s
`product_id`, it returns `exact_match` when quantity and unit agree,
`quantity_mismatch` (reporting expected and actual quantities) when only
quantity differs, `unit_mismatch` when only unit differs, and
`quantity_and_unit_mismatch` when both differ. -/
theorem getMismatchDetail_classifies (p : CartItem) (G : List CartItem) :
    ((∀ g ∈ G, g.product_id ≠ p.product_id) →
      (getMismatchDetail p G).kind = MismatchType.extra_item) ∧
    (∀ m, G.find? (fun g => decide (g.product_id = p.product_id)) = some m →
      ((m.quantity = p.quantity → m.unit = p.unit →
          getMismatchDetail p G = { kind := .exact_match, productId := p.product_id }) ∧
       (m.quantity ≠ p.quantity → m.unit = p.unit →
          (getMismatchDetail p G).kind = .quantity_mismatch ∧
          (getMismatchDetail p G).expectedQuantity = some m.quantity ∧
          (getMismatchDetail p G).actualQuantity = some p.quantity) ∧
       (m.quantity = p.quantity → m.unit ≠ p.unit →
          (getMismatchDetail p G).kind = .unit_mismatch) ∧
       (m.quantity ≠ p.quantity → m.unit ≠ p.unit →
          (getMismatchDetail p G).kind = .quantity_and_unit_mismatch))) := by
  constructor
  · intro hnone
    have hfind : G.find? (fun g => decide (g.product_id = p.product_id)) = none := by
      rw [List.find?_eq_none]
      intro g hg
      simpa using hnone g hg
    simp [getMismatchDetail, hfind]
  · intro m hm
    refine ⟨?_, ?_, ?_, ?_⟩
    · intro hq hu
      simp [getMismatchDetail, hm, hq, hu]
    · intro hq hu
      simp [getMismatchDetail, hm, hq, hu]
    · intro hq hu
      simp [getMismatchDetail, hm, hq, hu]
    · intro hq hu
      simp [getMismatchDetail, hm, hq, hu]

/-- Witness for C1: the classification theorem applied to concrete carts
with a quantity mismatch and with an extra item. -/
theorem getMismatchDetail_classifies_witness :
    (getMismatchDetail ⟨"1", "x", 3, "box"⟩ [⟨"1", "x", 2, "box"⟩]).kind =
      MismatchType.quantity_mismatch ∧
    (getMismatchDetail ⟨"1", "x", 3, "box"⟩ [⟨"1", "x", 2, "box"⟩]).expectedQuantity = some 2 ∧
    (getMismatchDetail ⟨"1", "x", 3, "box"⟩ [⟨"1", "x", 2, "box"⟩]).actualQuantity = some 3 ∧
    (getMismatchDetail ⟨"2", "y", 1, "box"⟩ []).kind = MismatchType.extra_item := by
  have h := getMismatchDetail_classifies ⟨"1", "x", 3, "box"⟩ [⟨"1", "x", 2, "box"⟩]
  have hq := (h.2 ⟨"1", "x", 2, "box"⟩ (by decide)).2.1 (by decide) (by decide)
  have hx := (getMismatchDetail_classifies ⟨"2", "y", 1, "box"⟩ []).1 (by simp)
  exact ⟨hq.1, hq.2.1, hq.2.2, hx⟩

/-- C2 counterexample: with ground truth `[{1,1,box}]` (pairwise-distinct
product ids) and predictions `[{1,1,box},{1,1,box}]`, set equality holds in
both directions — every ground-truth item has an exactly matching
predicted item and every predicted item exactly matches a ground-truth
item — yet `isExactMatch` is `false`, refuting the claimed equivalence. -/
theorem isExactMatch_set_equality_fails :
    (([⟨"1", "a", 1, "box"⟩] : List CartItem).map CartItem.product_id).Nodup ∧
    (([⟨"1", "a", 1, "box"⟩] : List CartItem).all
      (fun g => ([⟨"1", "a", 1, "box"⟩, ⟨"1", "a", 1, "box"⟩] : List CartItem).any
        (fun p => cartItemsMatch g p)) = true) ∧
    (([⟨"1", "a", 1, "box"⟩, ⟨"1", "a", 1, "box"⟩] : List CartItem).all
      (fun p => ([⟨"1", "a", 1, "box"⟩] : List CartItem).any
        (fun g => cartItemsMatch g p)) = true) ∧
    isExactMatch [⟨"1", "a", 1, "box"⟩] [⟨"1", "a", 1, "box"⟩, ⟨"1", "a", 1, "box"⟩] = false := by
  refine ⟨by decide, by decide, by decide, by decide⟩

/-- C2 (amended): when the ground-truth cart and the predicted cart both
have pairwise-distinct product ids, `isExactMatch` is `true` iff the carts
are equal as sets including quantity and unit: every ground-truth item has
an exactly matching predicted item and every predicted item exactly
matches a ground-truth item, independent of order. -/
theorem isExactMatch_iff_set_equality (G P : List CartItem)
    (hG : (G.map CartItem.product_id).Nodup) (hP : (P.map CartItem.product_id).Nodup) :
    isExactMatch G P = true ↔
      ((∀ g ∈ G, ∃ p ∈ P, cartItemsMatch g p = true) ∧
       (∀ p ∈ P, ∃ g ∈ G, cartItemsMatch g p = true)) := by
  have hlenG : (G.map CartItem.product_id).toFinset.card = G.length := by
    rw [List.toFinset_card_of_nodup hG, List.length_map]
  have hlenP : (P.map CartItem.product_id).toFinset.card = P.length := by
    rw [List.toFinset_card_of_nodup hP, List.length_map]
  constructor
  · intro h
    have h' := h
    simp only [isExactMatch, Bool.and_eq_true, decide_eq_true_eq, List.all_eq_true,
      List.any_eq_true] at h'
    obtain ⟨hlen, hall⟩ := h'
    refine ⟨fun g hg => hall g hg, ?_⟩
    have hsub : (G.map CartItem.product_id).toFinset ⊆ (P.map CartItem.product_id).toFinset := by
      intro x hx
      rw [List.mem_toFinset, List.mem_map] at hx
      obtain ⟨g, hgG, rfl⟩ := hx
      obtain ⟨p, hpP, hmatch⟩ := hall g hgG
      rw [cartItemsMatch_iff] at hmatch
      rw [List.mem_toFinset, List.mem_map]
      exact ⟨p, hpP, hmatch.1.symm⟩
    have hedge : (G.map CartItem.product_id).toFinset = (P.map CartItem.product_id).toFinset := by
      apply Finset.eq_of_subset_of_card_le hsub
      rw [hlenG, hlenP, hlen]
    intro p hpP
    have hpid : p.product_id ∈ (G.map CartItem.product_id).toFinset := by
      rw [hedge, List.mem_toFinset, List.mem_map]
      exact ⟨p, hpP, rfl⟩
    rw [List.mem_toFinset, List.mem_map] at hpid
    obtain ⟨g, hgG, hgid⟩ := hpid
    obtain ⟨p', hp'P, hmatch⟩ := hall g hgG
    have hp'id : p'.product_id = p.product_id := by
      rw [cartItemsMatch_iff] at hmatch
      rw [← hmatch.1, hgid]
    have hpp : p' = p := List.inj_on_of_nodup_map hP hp'P hpP hp'id
    subst hpp
    exact ⟨g, hgG, hmatch⟩
  · rintro ⟨h1, h2⟩
    have hsubG : (G.map CartItem.product_id).toFinset ⊆ (P.map CartItem.product_id).toFinset := by
      intro x hx
      rw [List.mem_toFinset, List.mem_map] at hx
      obtain ⟨g, hgG, rfl⟩ := hx
      obtain ⟨p, hpP, hmatch⟩ := h1 g hgG
      rw [cartItemsMatch_iff] at hmatch
      rw [List.mem_toFinset, List.mem_map]
      exact ⟨p, hpP, hmatch.1.symm⟩
    have hsubP : (P.map CartItem.product_id).toFinset ⊆ (G.map CartItem.product_id).toFinset := by
      intro x hx
      rw [List.mem_toFinset, List.mem_map] at hx
      obtain ⟨p, hpP, rfl⟩ := hx
      obtain ⟨g, hgG, hmatch⟩ := h2 p hpP
      rw [cartItemsMatch_iff] at hmatch
      rw [List.mem_toFinset, List.mem_map]
      exact ⟨g, hgG, hmatch.1⟩
    have hlen : G.length = P.length := by
      rw [← hlenG, ← hlenP]
      exact le_antisymm (Finset.card_le_card hsubG) (Finset.card_le_card hsubP)
    simp only [isExactMatch, Bool.and_eq_true, decide_eq_true_eq, List.all_eq_true,
      List.any_eq_true]
    exact ⟨hlen, h1⟩

/-- Witness for C2: the equivalence applied to concrete two-item carts in
different orders, concluding that `isExactMatch` holds. -/
theorem isExactMatch_iff_set_equality_witness :
    isExactMatch [⟨"1", "a", 2, "box"⟩, ⟨"2", "b", 1, "pc"⟩]
      [⟨"2", "b", 1, "pc"⟩, ⟨"1", "a", 2, "box"⟩] = true :=
  (isExactMatch_iff_set_equality
    [⟨"1", "a", 2, "box"⟩, ⟨"2", "b", 1, "pc"⟩]
    [⟨"2", "b", 1, "pc"⟩, ⟨"1", "a", 2, "box"⟩]
    (by decide) (by decide)).mpr ⟨by decide, by decide⟩

/-- C3 counterexample: for ground truth `[{1,1,box}]` and the duplicated
prediction `[{1,1,box},{1,1,box}]`, both predicted items count as true
positives, so `recall = 2/max(1,1) = 2 > 1`, refuting the claimed bound
`recall ≤ 1` for arbitrary cart pairs. -/
theorem recallOf_exceeds_one :
    recallOf [⟨"1", "a", 1, "box"⟩] [⟨"1", "a", 1, "box"⟩, ⟨"1", "a", 1, "box"⟩] = 2 ∧
    ¬ recallOf [⟨"1", "a", 1, "box"⟩] [⟨"1", "a", 1, "box"⟩, ⟨"1", "a", 1, "box"⟩] ≤ 1 := by
  have htp : truePositives [⟨"1", "a", 1, "box"⟩]
      [⟨"1", "a", 1, "box"⟩, ⟨"1", "a", 1, "box"⟩] = 2 := by decide
  constructor
  · rw [recallOf, htp]
    norm_num [maxOne]
  · rw [recallOf, htp]
    norm_num [maxOne]

/-- C3 (amended): the comparison metrics satisfy the spec formulas —
`precision = tp / max(1, |predicted|)`, `recall = tp / max(1, |ground
truth|)`, and `f1 = 0` whenever `precision + recall = 0`; precision always
lies in `[0, 1]` and recall and f1 are always nonnegative; and when the
predicted cart has pairwise-distinct product ids, recall and f1 also lie
in `[0, 1]`. -/
theorem compare_metrics_spec (gt pred : List CartItem) :
    precisionOf gt pred = (truePositives gt pred : ℚ) / (maxOne pred.length : ℚ) ∧
    recallOf gt pred = (truePositives gt pred : ℚ) / (maxOne gt.length : ℚ) ∧
    (precisionOf gt pred + recallOf gt pred = 0 → f1Of gt pred = 0) ∧
    0 ≤ precisionOf gt pred ∧ precisionOf gt pred ≤ 1 ∧
    0 ≤ recallOf gt pred ∧ 0 ≤ f1Of gt pred ∧
    ((pred.map CartItem.product_id).Nodup →
      recallOf gt pred ≤ 1 ∧ f1Of gt pred ≤ 1) := by
  refine ⟨rfl, rfl, ?_, (precision_bounds gt pred).1, (precision_bounds gt pred).2,
    recall_nonneg gt pred, f1_nonneg gt pred, ?_⟩
  · intro h
    rw [f1Of, if_pos h]
  · intro hP
    exact ⟨recall_le_one gt pred hP, f1_le_one gt pred hP⟩

/-- Witness for C3: the metric bounds at a concrete pair with one hit and
one miss, and the zero-f1 clause at the empty pair. -/
theorem compare_metrics_spec_witness :
    (0 ≤ precisionOf [⟨"1", "a", 1, "box"⟩, ⟨"2", "b", 1, "box"⟩]
        [⟨"1", "a", 1, "box"⟩, ⟨"3", "c", 1, "box"⟩] ∧
     precisionOf [⟨"1", "a", 1, "box"⟩, ⟨"2", "b", 1, "box"⟩]
        [⟨"1", "a", 1, "box"⟩, ⟨"3", "c", 1, "box"⟩] ≤ 1 ∧
     recallOf [⟨"1", "a", 1, "box"⟩, ⟨"2", "b", 1, "box"⟩]
        [⟨"1", "a", 1, "box"⟩, ⟨"3", "c", 1, "box"⟩] ≤ 1 ∧
     f1Of [⟨"1", "a", 1, "box"⟩, ⟨"2", "b", 1, "box"⟩]
        [⟨"1", "a", 1, "box"⟩, ⟨"3", "c", 1, "box"⟩] ≤ 1) ∧
    f1Of ([] : List CartItem) ([] : List CartItem) = 0 := by
  have h := compare_metrics_spec [⟨"1", "a", 1, "box"⟩, ⟨"2", "b", 1, "box"⟩]
    [⟨"1", "a", 1, "box"⟩, ⟨"3", "c", 1, "box"⟩]
  have hb := h.2.2.2.2.2.2.2 (by decide)
  have h0 := compare_metrics_spec ([] : List CartItem) ([] : List CartItem)
  have hzero : precisionOf ([] : List CartItem) ([] : List CartItem) +
      recallOf ([] : List CartItem) ([] : List CartItem) = 0 := by
    have htp : truePositives ([] : List CartItem) ([] : List CartItem) = 0 := rfl
    rw [precisionOf, recallOf, htp]
    norm_num
  exact ⟨⟨h.2.2.2.1, h.2.2.2.2.1, hb.1, hb.2⟩, h0.2.2.1 hzero⟩

/-- C4 (spec-modelled): starting an execution for a scenario whose entry is
`running` returns a synchronous error — the error carries no successor
state, so the status entry is untouched — and in every store state
reachable from the initial store, each scenario has at most one execution
in flight. -/
theorem start_rejected_single_flight :
    (∀ (s : ExecStore) (sid : String), s.entry sid = some SpecStatus.running →
      startExecution s sid = Except.error ("already running")) ∧
    (∀ s : ExecStore, ReachableStore s → ∀ sid, s.inflight sid ≤ 1) := by
  constructor
  · intro s sid h
    rw [startExecution, if_pos h]
  · intro s hs sid
    have hinv := storeInv_reachable hs
    by_cases h : s.entry sid = some SpecStatus.running
    · rw [(hinv sid).1 h]
    · rw [(hinv sid).2 h]
      exact Nat.zero_le 1

/-- Witness for C4: the rejection at a concrete store with scenario `s1`
running, and the flight bound at the initial store. -/
theorem start_rejected_single_flight_witness :
    startExecution runningStoreA ("s1") = Except.error ("already running") ∧
    initStore.inflight ("s1") ≤ 1 := by
  constructor
  · exact start_rejected_single_flight.1 runningStoreA ("s1") (by simp [runningStoreA])
  · exact start_rejected_single_flight.2 initStore ReachableStore.init ("s1")

/-- C5: `getMissingItems` returns a sublist of the ground-truth cart (so
the original order is preserved), and an item is in the result exactly
when it is a ground-truth item whose `product_id` occurs in no predicted
item. -/
theorem getMissingItems_spec (G P : List CartItem) :
    (getMissingItems G P).Sublist G ∧
    (∀ x, x ∈ getMissingItems G P ↔ x ∈ G ∧ ∀ p ∈ P, p.product_id ≠ x.product_id) := by
  constructor
  · exact List.filter_sublist G
  · intro x
    simp [getMissingItems, List.mem_filter]

/-- Witness for C5: at concrete carts, the result is a sublist of the
ground truth and contains the unpredicted item. -/
theorem getMissingItems_spec_witness :
    (getMissingItems [⟨"1", "a", 1, "box"⟩, ⟨"2", "b", 1, "box"⟩]
      [⟨"1", "a", 1, "box"⟩, ⟨"3", "c", 1, "box"⟩]).Sublist
      [⟨"1", "a", 1, "box"⟩, ⟨"2", "b", 1, "box"⟩] ∧
    (⟨"2", "b", 1, "box"⟩ : CartItem) ∈ getMissingItems
      [⟨"1", "a", 1, "box"⟩, ⟨"2", "b", 1, "box"⟩]
      [⟨"1", "a", 1, "box"⟩, ⟨"3", "c", 1, "box"⟩] := by
  have h := getMissingItems_spec [⟨"1", "a", 1, "box"⟩, ⟨"2", "b", 1, "box"⟩]
    [⟨"1", "a", 1, "box"⟩, ⟨"3", "c", 1, "box"⟩]
  exact ⟨h.1, (h.2 ⟨"2", "b", 1, "box"⟩).mpr ⟨by decide, by decide⟩⟩

/-- C6: the `ExecutionStatus` union declared in `scenario-types.ts` line
114 has exactly the four alternatives `pending`, `running`, `completed`
and `failed`; no value of the declared type denotes the string
`cancelled`, so the `status === 'cancelled'` branches of the polling code
(`Scenarios.tsx` lines 188, 203, 1093 and 1108) are unreachable for
values of the declared type, although the spec and those branches treat
`cancelled` as a fifth status. -/
theorem executionStatus_cannot_be_cancelled (s : ExecutionStatus) :
    (s.toName = "pending" ∨ s.toName = "running" ∨
     s.toName = "completed" ∨ s.toName = "failed") ∧
    (s.toName == "cancelled") = false := by
  cases s <;> exact ⟨by simp [ExecutionStatus.toName], by decide⟩

/-- C7: over any sequence of polled statuses of one execution attempt, the
polling loop (interval 2000 ms in the list view, 1000 ms in the detail
view) emits at most one terminal toast, and it has stopped after the run
exactly when some polled status was `completed`, `failed` or `cancelled` —
the interval is cleared at the first terminal poll, so at most one
terminal status is ever acted on. -/
theorem polling_terminal_once (obs : List String) :
    listPollIntervalMs = 2000 ∧ detailPollIntervalMs = 1000 ∧
    (runPolling initPollState obs).toastCount ≤ 1 ∧
    ((runPolling initPollState obs).pollingActive = false ↔
      ∃ s ∈ obs, isTerminalStatus s = true) := by
  have h := runPolling_invariant obs initPollState rfl rfl rfl
  exact ⟨rfl, rfl, h.1, h.2⟩

/-- Witness for C7: a concrete run that observes `running` and then
`completed` emits at most one toast and has stopped polling. -/
theorem polling_terminal_once_witness :
    (runPolling initPollState ["running", "completed", "completed"]).toastCount ≤ 1 ∧
    (runPolling initPollState ["running", "completed", "completed"]).pollingActive = false := by
  have h := polling_terminal_once ["running", "completed", "completed"]
  exact ⟨h.2.2.1, h.2.2.2.mpr ⟨"completed", by decide, by decide⟩⟩

/-- C8: the cleanup that runs a fixed 3000 ms after a terminal status was
observed removes exactly the finished scenario's status entry and removes
it from the already-notified set, while the entry and notified flag of
every other scenario are unchanged. -/
theorem cleanup_exact_frame (statuses : String → Option ExecutionStatusInfo)
    (notified : String → Bool) (sid : String) :
    cleanupDelayMs = 3000 ∧
    clearStatusEntry statuses sid sid = none ∧
    removeNotified notified sid sid = false ∧
    (∀ k, k ≠ sid →
      clearStatusEntry statuses sid k = statuses k ∧
      removeNotified notified sid k = notified k) := by
  refine ⟨rfl, by simp [clearStatusEntry], by simp [removeNotified], ?_⟩
  intro k hk
  simp [clearStatusEntry, removeNotified, hk]

/-- Witness for C8: cleaning up scenario `s1` in a concrete two-scenario
status map clears `s1` and leaves `s2` untouched. -/
theorem cleanup_exact_frame_witness :
    clearStatusEntry demoStatuses ("s1") ("s1") = none ∧
    removeNotified demoNotified ("s1") ("s1") = false ∧
    clearStatusEntry demoStatuses ("s1") ("s2") = demoStatuses ("s2") ∧
    removeNotified demoNotified ("s1") ("s2") = demoNotified ("s2") := by
  have h := cleanup_exact_frame demoStatuses demoNotified ("s1")
  have h2 := h.2.2.2 ("s2") (by decide)
  exact ⟨h.2.1, h.2.2.1, h2.1, h2.2⟩

/-- C9: after any sequence of selection operations (toggles, select-all,
clear) starting from the empty selection, the selection list — exactly the
list `Array.from(selectedScenarios)` passed to `batchExecute` — contains
pairwise-distinct scenario ids. -/
theorem batch_ids_nodup (ops : List SelectionOp) : (runSelOps ops).Nodup :=
  foldl_selOps_nodup ops [] List.nodup_nil

/-- C10: the cost of a model execution result is `0` whenever
`input_tokens` or `output_tokens` is absent or zero — even if the other
count is positive — and otherwise equals `input_tokens/1e6` times the
model's small-tier input price plus `output_tokens/1e6` times its
small-tier output price, where a model name not in the pricing table is
priced as `gemini-2.5-pro`. -/
theorem calculateModelResultCost_spec (r : ModelExecutionResult) (name : String) :
    ((r.input_tokens = none ∨ r.input_tokens = some 0 ∨
      r.output_tokens = none ∨ r.output_tokens = some 0) →
      calculateModelResultCost (some r) name = 0) ∧
    (∀ i o, r.input_tokens = some i → r.output_tokens = some o → i ≠ 0 → o ≠ 0 →
      calculateModelResultCost (some r) name =
        i / 1000000 * ((modelPricing name).getD geminiProPricing).input_small +
        o / 1000000 * ((modelPricing name).getD geminiProPricing).output_small) ∧
    (name ≠ "gemini-2.5-pro" → name ≠ "gemini-2.5-flash" →
      (modelPricing name).getD geminiProPricing = geminiProPricing) := by
  refine ⟨?_, ?_, ?_⟩
  · intro h
    rcases h with h | h | h | h <;>
      simp [calculateModelResultCost, h]
  · intro i o hi ho hi0 ho0
    simp [calculateModelResultCost, hi, ho, hi0, ho0, calculateCost]
  · intro h1 h2
    simp [modelPricing, h1, h2]

/-- Witness for C10: a result with 100 input and 200 output tokens under an
unknown model name is priced with the `gemini-2.5-pro` small-tier rates. -/
theorem calculateModelResultCost_spec_witness :
    calculateModelResultCost (some demoResult) ("mystery-model") =
      (100 : ℚ) / 1000000 * (5/4) + (200 : ℚ) / 1000000 * 10 := by
  have h := calculateModelResultCost_spec demoResult ("mystery-model")
  have h2 := h.2.1 100 200 rfl rfl (by norm_num) (by norm_num)
  rw [h2, h.2.2 (by decide) (by decide)]
  norm_num [geminiProPricing]

end AvoNext
